import Mathlib

/-!
Verification of the core data transformations of the push-up dashboard
(`src/app.py`): the grid loader `load_data`, the series reshaper
`as_time_series`, and the cumulative-sum / goal-crossing computations
from `main`.

Modelling choices (shallow embedding):
* A pandas `DataFrame` is a row-labelled, column-labelled table.  Cell
  values are `Option Int` where `none` stands for a missing value (NaN).
* A pandas `Series` produced by `as_time_series` is a list of
  (date, value) pairs; dates are encoded injectively as naturals.
* Fallible pandas operations (raising `ValueError`) return
  `Except String _`, with the error string naming the exception.
* `pd.to_datetime(f"{day}/{month}/{year}", format="%d/%B/%Y")` succeeds
  exactly when `month` is one of the twelve full month names and `day`
  is a valid day of that month in `year`; otherwise it raises.
  (strptime also matches month names case-insensitively; every call
  site uses the canonical capitalised names, so exact matching is used.)
-/

instance {ε α : Type} [DecidableEq ε] [DecidableEq α] :
    DecidableEq (Except ε α)
  | .error a, .error b =>
      if h : a = b then .isTrue (by rw [h])
      else .isFalse (by intro hh; cases hh; exact h rfl)
  | .error _, .ok _ => .isFalse (by intro hh; cases hh)
  | .ok _, .error _ => .isFalse (by intro hh; cases hh)
  | .ok a, .ok b =>
      if h : a = b then .isTrue (by rw [h])
      else .isFalse (by intro hh; cases hh; exact h rfl)

/-- `MONTHS` from `app.py`: the canonical month-name list. -/
def MONTHS : List String :=
  ["January", "February", "March", "April", "May", "June", "July",
   "August", "September", "October", "November", "December"]

/-- A pandas `DataFrame`: row labels, column labels, and rows of cells
(`none` = NaN).  `load_data` produces frames whose index is `1..31`. -/
structure DataFrame where
  index : List Nat
  cols : List String
  data : List (List (Option Int))
  deriving Repr, DecidableEq

/-- A raw table as returned by `pd.read_csv` (default integer index is
left implicit: `load_data` discards and replaces it). -/
structure Table where
  cols : List String
  data : List (List (Option Int))
  deriving Repr, DecidableEq

/-- A data frame is well-formed when the row labels and rows line up
and every row has one cell per column (pandas guarantees this shape). -/
def DataFrame.wellFormed (df : DataFrame) : Prop :=
  df.index.length = df.data.length ∧ ∀ row ∈ df.data, row.length = df.cols.length

instance (df : DataFrame) : Decidable df.wellFormed := by
  unfold DataFrame.wellFormed; infer_instance

/-- Gregorian leap-year rule, as used by Python's `datetime`. -/
def isLeap (y : Nat) : Bool :=
  y % 4 = 0 && (y % 100 != 0 || y % 400 = 0)

/-- Number of days of month `m` (1..12) in year `y`. -/
def daysInMonth (y m : Nat) : Nat :=
  if m = 2 then (if isLeap y then 29 else 28)
  else if m = 4 ∨ m = 6 ∨ m = 9 ∨ m = 11 then 30
  else 31

/-- Month name to month number 1..12 (`none` when `strptime` `%B`
cannot match the string). -/
def monthNumber (month : String) : Option Nat :=
  (MONTHS.indexOf? month).map (· + 1)

/-- Injective, chronologically monotone encoding of a calendar date. -/
def dateCode (year m day : Nat) : Nat :=
  (year * 12 + (m - 1)) * 31 + (day - 1)

/-- The inner `to_datetime` of `as_time_series`:
`pd.to_datetime(f"{day}/{month}/{year}", format="%d/%B/%Y")`.
Raises when the month name is unknown or the day is out of range. -/
def to_datetime (day : Nat) (month : String) (year : Nat := 2021) :
    Except String Nat :=
  match monthNumber month with
  | none => .error "ValueError: time data does not match format"
  | some m =>
      if 1 ≤ day ∧ day ≤ daysInMonth year m then .ok (dateCode year m day)
      else .error "ValueError: day is out of range for month"

/-- One row's contribution to `df.stack()`: the present cells of the
row labelled `d`, tagged with their column labels. -/
def stackRow (cols : List String) (d : Nat) (row : List (Option Int)) :
    List (Nat × String × Int) :=
  (cols.zip row).filterMap fun q => q.2.map fun v => (d, q.1, v)

/-- `df.stack()`: flatten to (row label, column label, value) triples in
row-major order, dropping missing cells (pandas `stack` drops NaN). -/
def DataFrame.stack (df : DataFrame) : List (Nat × String × Int) :=
  (df.index.zip df.data).flatMap fun p => stackRow df.cols p.1 p.2

/-- Applying `to_datetime` over the stacked index
(`pd.Series(stacked.index.tolist()).apply(to_datetime)`): the first
exception raised aborts the whole computation. -/
def dateStack : List (Nat × String × Int) → Except String (List (Nat × Int))
  | [] => .ok []
  | (d, m, v) :: rest =>
      match to_datetime d m with
      | .error e => .error e
      | .ok t =>
          match dateStack rest with
          | .error e => .error e
          | .ok ts => .ok ((t, v) :: ts)

/-- Order on time-series entries used by `sort_index`: compare dates. -/
def entryLe (a b : Nat × Int) : Prop := a.1 ≤ b.1

instance : DecidableRel entryLe := fun a b => by
  unfold entryLe; infer_instance

instance : IsTotal (Nat × Int) entryLe :=
  ⟨fun a b => Nat.le_total a.1 b.1⟩

instance : IsTrans (Nat × Int) entryLe :=
  ⟨fun _ _ _ h h' => Nat.le_trans h h'⟩

/-- `as_time_series` from `app.py`: stack the grid, convert each
(day, month) label to a date of the target year, and sort by date. -/
def as_time_series (df : DataFrame) : Except String (List (Nat × Int)) := do
  let dated ← dateStack df.stack
  pure (dated.insertionSort entryLe)

/-- The predicate of `drop_cols`: keep a column unless its name starts
with `"Unnamed:"` (`c.startswith("Unnamed:")`, expressed on the
character sequence of the name). -/
def keepCol (c : String) : Bool := !("Unnamed:".data.isPrefixOf c.data)

/-- Effect of `df.drop(columns=drop_cols)` on one row: keep the cells
of the retained columns. -/
def dropUnnamedRow (cols : List String) (row : List (Option Int)) :
    List (Option Int) :=
  ((cols.zip row).filter fun q => keepCol q.1).map Prod.snd

/-- Column renaming through the Python dict `dict(zip(df.columns, MONTHS))`:
the dict maps a name to the month it was last zipped with, and
`DataFrame.rename` leaves names absent from the dict unchanged. -/
def renameWith (pairs : List (String × String)) (c : String) : String :=
  match (pairs.filter fun q => q.1 = c).getLast? with
  | some q => q.2
  | none => c

/-- `load_data` from `app.py` (after `pd.read_csv`): drop `Unnamed:`
columns, keep the first 31 rows (`iloc[:31]`), relabel rows `1..31`
(the assignment `df.index = range(1, 32)` raises a length-mismatch
`ValueError` when the frame has fewer than 31 rows), and rename the
remaining columns via `dict(zip(df.columns, MONTHS))`. -/
def load_data (t : Table) : Except String DataFrame :=
  let cols1 := t.cols.filter keepCol
  let data2 := (t.data.map (dropUnnamedRow t.cols)).take 31
  if data2.length = 31 then
    .ok ⟨List.range' 1 31, cols1.map (renameWith (cols1.zip MONTHS)), data2⟩
  else
    .error "ValueError: Length mismatch: Expected axis has 31 elements"

/-- `ts.cumsum()`: running totals, keeping the date labels. -/
def cumsumFrom (acc : Int) : List (Nat × Int) → List (Nat × Int)
  | [] => []
  | (d, v) :: rest => (d, acc + v) :: cumsumFrom (acc + v) rest

def cumsum (ts : List (Nat × Int)) : List (Nat × Int) := cumsumFrom 0 ts

/-- `Series.idxmin()`: label of the first occurrence of the minimal
value; raises `ValueError` on an empty series. -/
def idxminFrom (best : Nat × Int) : List (Nat × Int) → Nat
  | [] => best.1
  | p :: rest => if p.2 < best.2 then idxminFrom p rest else idxminFrom best rest

def idxmin : List (Nat × Int) → Except String Nat
  | [] => .error "ValueError: attempt to get argmin of an empty sequence"
  | p :: rest => .ok (idxminFrom p rest)

/-- The goal-crossing computation of `main`:
`csum = ts.cumsum(); csum[csum > 10000].idxmin()`. -/
def goalCrossing (ts : List (Nat × Int)) : Except String Nat :=
  idxmin ((cumsum ts).filter fun p => 10000 < p.2)

/-- Sum of the present cells of a frame, row by row. -/
def DataFrame.presentCells (df : DataFrame) : List Int :=
  df.data.flatMap fun row => row.filterMap id

/-- An all-missing grid row (12 month columns). -/
def blankRow : List (Option Int) := List.replicate 12 none

/-- A grid row with a present value 5 under February only. -/
def febRow : List (Option Int) := [none, some 5] ++ List.replicate 10 none

/-- The 31-day, 12-month grid whose only present cell is day 29 of
February (value 5) — an invalid calendar date in 2021. -/
def gFeb29 : DataFrame :=
  ⟨List.range' 1 31, MONTHS,
    (List.range' 1 31).map fun d => if d = 29 then febRow else blankRow⟩

/-- Witness frame: a well-formed two-day grid with distinct row labels
and distinct month columns. -/
def dfW : DataFrame :=
  ⟨[1, 2], ["February", "January"], [[some 4, none], [none, some 7]]⟩

/-- The time series `as_time_series` produces from `dfW`. -/
def tsW : List (Nat × Int) :=
  [(dateCode 2021 1 2, 7), (dateCode 2021 2 1, 4)]

/-- A 12-month table with only 30 data rows. -/
def tbl30 : Table := ⟨MONTHS, List.replicate 30 blankRow⟩

/-- A 12-month table with exactly 31 data rows. -/
def tbl31 : Table := ⟨MONTHS, List.replicate 31 blankRow⟩

/-- A 31-row table with two named columns and one `Unnamed:` column. -/
def tblU : Table :=
  ⟨["A", "Unnamed: 12", "B"], List.replicate 31 [some 1, some 2, none]⟩

/-! ### Facts about month names and `to_datetime` -/

lemma indexOf?_get? {l : List String} {x : String} :
    ∀ {i : Nat}, l.indexOf? x = some i → l.get? i = some x := by
  induction l with
  | nil => intro i h; simp [List.indexOf?] at h
  | cons a as ih =>
    intro i h
    rw [List.indexOf?_cons] at h
    cases hax : (a == x) with
    | true =>
      rw [hax, if_pos rfl] at h
      cases h
      have : a = x := by simpa [beq_iff_eq] using hax
      simp [this]
    | false =>
      rw [hax] at h
      simp only [Bool.false_eq_true, if_false] at h
      cases hi : as.indexOf? x with
      | none => rw [hi] at h; simp at h
      | some j =>
        rw [hi] at h
        simp only [Option.map_some'] at h
        cases h
        simpa using ih hi

lemma monthNumber_bounds {m : String} {k : Nat} (h : monthNumber m = some k) :
    1 ≤ k ∧ k ≤ 12 ∧ MONTHS.get? (k - 1) = some m := by
  unfold monthNumber at h
  cases hi : MONTHS.indexOf? m with
  | none => rw [hi] at h; simp at h
  | some i =>
    rw [hi] at h
    simp only [Option.map_some'] at h
    cases h
    have hg := indexOf?_get? hi
    have hlt : i < MONTHS.length := by
      rcases List.get?_eq_some.mp hg with ⟨hl, _⟩
      exact hl
    have h12 : MONTHS.length = 12 := by decide
    refine ⟨by omega, by omega, ?_⟩
    simpa using hg

lemma monthNumber_inj {m m' : String} {k : Nat}
    (h : monthNumber m = some k) (h' : monthNumber m' = some k) : m = m' := by
  obtain ⟨_, _, hg⟩ := monthNumber_bounds h
  obtain ⟨_, _, hg'⟩ := monthNumber_bounds h'
  rw [hg] at hg'
  exact Option.some_injective _ hg'

lemma daysInMonth_le (y m : Nat) : daysInMonth y m ≤ 31 := by
  unfold daysInMonth
  split_ifs <;> omega

lemma to_datetime_ok {d : Nat} {m : String} {t : Nat}
    (h : to_datetime d m = .ok t) :
    ∃ k, monthNumber m = some k ∧ 1 ≤ d ∧ d ≤ daysInMonth 2021 k ∧
      t = dateCode 2021 k d := by
  unfold to_datetime at h
  cases hm : monthNumber m with
  | none => rw [hm] at h; cases h
  | some k =>
    rw [hm] at h
    dsimp only at h
    by_cases hd : 1 ≤ d ∧ d ≤ daysInMonth 2021 k
    · rw [if_pos hd] at h
      cases h
      exact ⟨k, rfl, hd.1, hd.2, rfl⟩
    · rw [if_neg hd] at h
      cases h

lemma to_datetime_inj {d d' : Nat} {m m' : String} {t : Nat}
    (h : to_datetime d m = .ok t) (h' : to_datetime d' m' = .ok t) :
    d = d' ∧ m = m' := by
  obtain ⟨k, hk, hd1, hd2, ht⟩ := to_datetime_ok h
  obtain ⟨k', hk', hd1', hd2', ht'⟩ := to_datetime_ok h'
  obtain ⟨hk1, hk12, _⟩ := monthNumber_bounds hk
  obtain ⟨hk1', hk12', _⟩ := monthNumber_bounds hk'
  have h31 := daysInMonth_le 2021 k
  have h31' := daysInMonth_le 2021 k'
  have heq : dateCode 2021 k d = dateCode 2021 k' d' := by rw [← ht, ← ht']
  unfold dateCode at heq
  have hkd : k = k' ∧ d = d' := by omega
  exact ⟨hkd.2, by rw [hkd.1] at hk; exact monthNumber_inj hk hk'⟩

/-! ### Facts about `dateStack` -/

lemma dateStack_nil_ok {r : List (Nat × Int)} (h : dateStack [] = .ok r) :
    r = [] := by
  unfold dateStack at h
  cases h
  rfl

lemma dateStack_cons_ok {d : Nat} {m : String} {v : Int}
    {l : List (Nat × String × Int)} {r : List (Nat × Int)}
    (h : dateStack ((d, m, v) :: l) = .ok r) :
    ∃ t r', to_datetime d m = .ok t ∧ dateStack l = .ok r' ∧
      r = (t, v) :: r' := by
  unfold dateStack at h
  cases ht : to_datetime d m with
  | error e => rw [ht] at h; cases h
  | ok t =>
    rw [ht] at h
    cases hr : dateStack l with
    | error e => rw [hr] at h; cases h
    | ok ts =>
      rw [hr] at h
      cases h
      exact ⟨t, ts, rfl, rfl, rfl⟩

lemma dateStack_ok_mem {l : List (Nat × String × Int)} {r : List (Nat × Int)}
    (h : dateStack l = .ok r) :
    ∀ b ∈ r, ∃ a ∈ l, to_datetime a.1 a.2.1 = .ok b.1 ∧ b.2 = a.2.2 := by
  induction l generalizing r with
  | nil =>
    cases dateStack_nil_ok h
    intro b hb
    cases hb
  | cons a l ih =>
    obtain ⟨d, m, v⟩ := a
    obtain ⟨t, r', ht, hr', rfl⟩ := dateStack_cons_ok h
    intro b hb
    cases hb with
    | head => exact ⟨(d, m, v), List.mem_cons_self _ _, ht, rfl⟩
    | tail _ hb =>
      obtain ⟨a, ha, h1, h2⟩ := ih hr' b hb
      exact ⟨a, List.mem_cons_of_mem _ ha, h1, h2⟩

lemma dateStack_values {l : List (Nat × String × Int)} {r : List (Nat × Int)}
    (h : dateStack l = .ok r) :
    r.map Prod.snd = l.map fun a => a.2.2 := by
  induction l generalizing r with
  | nil => cases dateStack_nil_ok h; rfl
  | cons a l ih =>
    obtain ⟨d, m, v⟩ := a
    obtain ⟨t, r', ht, hr', rfl⟩ := dateStack_cons_ok h
    simpa using ih hr'

lemma dateStack_error_of_mem {l : List (Nat × String × Int)}
    {d : Nat} {m : String} {v : Int} {e : String}
    (hm : (d, m, v) ∈ l) (he : to_datetime d m = .error e) :
    ∃ e', dateStack l = .error e' := by
  induction l with
  | nil => cases hm
  | cons a l ih =>
    obtain ⟨d', m', v'⟩ := a
    cases hm with
    | head =>
      refine ⟨e, ?_⟩
      unfold dateStack
      rw [he]
    | tail _ hm =>
      obtain ⟨e', he'⟩ := ih hm
      cases ht : to_datetime d' m' with
      | error e'' =>
        refine ⟨e'', ?_⟩
        unfold dateStack
        rw [ht]
      | ok t =>
        refine ⟨e', ?_⟩
        unfold dateStack
        rw [ht, he']

lemma dateStack_dates_nodup :
    ∀ {l : List (Nat × String × Int)} {r : List (Nat × Int)},
      (l.map fun a => (a.1, a.2.1)).Nodup → dateStack l = .ok r →
      (r.map Prod.fst).Nodup := by
  intro l
  induction l with
  | nil => intro r _ h; cases dateStack_nil_ok h; exact List.nodup_nil
  | cons a l ih =>
    intro r hn h
    obtain ⟨d, m, v⟩ := a
    obtain ⟨t, r', ht, hr', rfl⟩ := dateStack_cons_ok h
    simp only [List.map_cons, List.nodup_cons] at hn ⊢
    refine ⟨?_, ih hn.2 hr'⟩
    intro hmem
    obtain ⟨b, hb, hbt⟩ := List.mem_map.mp hmem
    obtain ⟨a', ha', hok, _⟩ := dateStack_ok_mem hr' b hb
    rw [hbt] at hok
    obtain ⟨hd, hm⟩ := to_datetime_inj ht hok
    exact hn.1 (List.mem_map.mpr ⟨a', ha', by rw [← hd, ← hm]⟩)

lemma as_time_series_ok {df : DataFrame} {ts : List (Nat × Int)}
    (h : as_time_series df = .ok ts) :
    ∃ dated, dateStack df.stack = .ok dated ∧
      ts = dated.insertionSort entryLe := by
  unfold as_time_series at h
  cases hd : dateStack df.stack with
  | error e => rw [hd] at h; cases h
  | ok dated =>
    rw [hd] at h
    cases h
    exact ⟨dated, rfl, rfl⟩

/-! ### Facts about `DataFrame.stack` -/

lemma map_fst_zip_sublist {α β : Type} :
    ∀ (l : List α) (r : List β), List.Sublist ((l.zip r).map Prod.fst) l := by
  intro l
  induction l with
  | nil => intro r; simp
  | cons a l ih =>
    intro r
    cases r with
    | nil => simp
    | cons b r => simpa using (ih r).cons₂ a

lemma stackRow_months_sublist (cols : List String) (d : Nat)
    (row : List (Option Int)) :
    List.Sublist ((stackRow cols d row).map fun a => a.2.1) cols := by
  have h1 : ((stackRow cols d row).map fun a => a.2.1) =
      (cols.zip row).filterMap fun q => q.2.map fun _ => q.1 := by
    unfold stackRow
    rw [List.map_filterMap]
    congr 1
    funext q
    cases q.2 <;> rfl
  rw [h1]
  have h2 : ∀ (l : List (String × Option Int)),
      List.Sublist (l.filterMap fun q => q.2.map fun _ => q.1) (l.map Prod.fst) := by
    intro l
    induction l with
    | nil => simp
    | cons q l ih =>
      cases hq : q.2 with
      | none =>
        simp only [List.filterMap_cons, hq, List.map_cons]
        exact ih.cons _
      | some v =>
        simp only [List.filterMap_cons, hq, Option.map_some', List.map_cons]
        exact ih.cons₂ _
  exact (h2 _).trans (map_fst_zip_sublist _ _)

lemma mem_stackRow {cols : List String} {d : Nat} {row : List (Option Int)}
    {a : Nat × String × Int} (h : a ∈ stackRow cols d row) : a.1 = d := by
  unfold stackRow at h
  obtain ⟨q, _, hfa⟩ := List.mem_filterMap.mp h
  cases hv : q.2 with
  | none => rw [hv] at hfa; cases hfa
  | some v =>
    rw [hv] at hfa
    cases hfa
    rfl

lemma stackRow_keys_nodup {cols : List String} (hc : cols.Nodup) (d : Nat)
    (row : List (Option Int)) :
    ((stackRow cols d row).map fun a => (a.1, a.2.1)).Nodup := by
  have hm : ((stackRow cols d row).map fun a => a.2.1).Nodup :=
    List.Nodup.sublist (stackRow_months_sublist cols d row) hc
  refine List.Nodup.of_map Prod.snd ?_
  have heq : (((stackRow cols d row).map fun a => (a.1, a.2.1)).map Prod.snd) =
      (stackRow cols d row).map fun a => a.2.1 := by
    rw [List.map_map]
    rfl
  rw [heq]
  exact hm

lemma stack_keys_nodup (df : DataFrame) (hi : df.index.Nodup)
    (hc : df.cols.Nodup) :
    (df.stack.map fun a => (a.1, a.2.1)).Nodup := by
  unfold DataFrame.stack
  have hzn : ((df.index.zip df.data).map Prod.fst).Nodup :=
    List.Nodup.sublist (map_fst_zip_sublist _ _) hi
  generalize df.index.zip df.data = rows at hzn ⊢
  induction rows with
  | nil => simp
  | cons p rest ih =>
    simp only [List.flatMap_cons, List.map_append]
    rw [List.nodup_append]
    simp only [List.map_cons, List.nodup_cons] at hzn
    refine ⟨stackRow_keys_nodup hc p.1 p.2, ih hzn.2, ?_⟩
    intro x hx1 hx2
    obtain ⟨a, ha, rfl⟩ := List.mem_map.mp hx1
    obtain ⟨b, hb, hh⟩ := List.mem_map.mp hx2
    obtain ⟨q, hq, hbq⟩ := List.mem_flatMap.mp hb
    apply hzn.1
    rw [List.mem_map]
    refine ⟨q, hq, ?_⟩
    have h1 : a.1 = p.1 := mem_stackRow ha
    have h2 : b.1 = q.1 := mem_stackRow hbq
    have h3 := congrArg Prod.fst hh
    rw [← h2]
    rw [show b.1 = a.1 from h3, h1]

lemma stackRow_values (cols : List String) :
    ∀ (row : List (Option Int)) (d : Nat), row.length = cols.length →
      ((stackRow cols d row).map fun a => a.2.2) = row.filterMap id := by
  induction cols with
  | nil =>
    intro row d h
    cases row with
    | nil => rfl
    | cons x xs => simp at h
  | cons c cs ih =>
    intro row d h
    cases row with
    | nil => simp at h
    | cons x xs =>
      simp only [List.length_cons] at h
      cases x with
      | none =>
        show ((stackRow cs d xs).map fun a => a.2.2) = xs.filterMap id
        exact ih xs d (by omega)
      | some v =>
        show v :: ((stackRow cs d xs).map fun a => a.2.2) =
          v :: xs.filterMap id
        rw [ih xs d (by omega)]

lemma stack_values_aux (cols : List String) :
    ∀ (idx : List Nat) (data : List (List (Option Int))),
      idx.length = data.length → (∀ row ∈ data, row.length = cols.length) →
      (((idx.zip data).flatMap fun p => stackRow cols p.1 p.2).map
          fun a => a.2.2) =
        data.flatMap fun row => row.filterMap id := by
  intro idx
  induction idx with
  | nil =>
    intro data h _
    cases data with
    | nil => rfl
    | cons _ _ => simp at h
  | cons d ds ih =>
    intro data h hr
    cases data with
    | nil => simp at h
    | cons row rest =>
      simp only [List.length_cons] at h
      simp only [List.zip_cons_cons, List.flatMap_cons, List.map_append]
      rw [stackRow_values cols row d (hr row (List.mem_cons_self _ _)),
        ih rest (by omega) fun r hrr => hr r (List.mem_cons_of_mem _ hrr)]

lemma stack_values (df : DataFrame) (hw : df.wellFormed) :
    (df.stack.map fun a => a.2.2) = df.presentCells := by
  obtain ⟨hlen, hrows⟩ := hw
  unfold DataFrame.stack DataFrame.presentCells
  exact stack_values_aux df.cols df.index df.data hlen hrows

lemma as_time_series_values_perm {df : DataFrame} {ts : List (Nat × Int)}
    (hw : df.wellFormed) (h : as_time_series df = .ok ts) :
    (ts.map Prod.snd).Perm df.presentCells := by
  obtain ⟨dated, hds, rfl⟩ := as_time_series_ok h
  have h1 : ((dated.insertionSort entryLe).map Prod.snd).Perm
      (dated.map Prod.snd) := (List.perm_insertionSort entryLe dated).map _
  have h2 : dated.map Prod.snd = df.presentCells := by
    rw [dateStack_values hds, stack_values df hw]
  rw [h2] at h1
  exact h1

/-- C2: for every grid with duplicate-free row labels and duplicate-free
month columns (in particular the 31-row, 12-month grids of the spec),
the time series produced by `as_time_series` is sorted strictly
ascending by date and contains no duplicate dates, hence at most one
entry per calendar date of the target year. -/
theorem as_time_series_sorted_nodup (df : DataFrame) (ts : List (Nat × Int))
    (hi : df.index.Nodup) (hc : df.cols.Nodup)
    (h : as_time_series df = .ok ts) :
    (ts.map Prod.fst).Sorted (· < ·) ∧ (ts.map Prod.fst).Nodup := by
  obtain ⟨dated, hds, rfl⟩ := as_time_series_ok h
  have hkeys := stack_keys_nodup df hi hc
  have hdn : (dated.map Prod.fst).Nodup := dateStack_dates_nodup hkeys hds
  have hperm : ((dated.insertionSort entryLe).map Prod.fst).Perm
      (dated.map Prod.fst) := (List.perm_insertionSort entryLe dated).map _
  have hnd2 : ((dated.insertionSort entryLe).map Prod.fst).Nodup :=
    hperm.nodup_iff.mpr hdn
  have hsle : (dated.insertionSort entryLe).Sorted entryLe :=
    List.sorted_insertionSort entryLe dated
  refine ⟨?_, hnd2⟩
  rw [List.Sorted, List.pairwise_map]
  have hne : (dated.insertionSort entryLe).Pairwise fun a b => a.1 ≠ b.1 := by
    have := hnd2
    rw [List.Nodup, List.pairwise_map] at this
    exact this
  exact (hsle.and hne).imp fun h => Nat.lt_of_le_of_ne h.1 h.2

/-- Witness for C2 at the concrete frame `dfW`. -/
theorem as_time_series_sorted_nodup_witness :
    (tsW.map Prod.fst).Sorted (· < ·) ∧ (tsW.map Prod.fst).Nodup :=
  as_time_series_sorted_nodup dfW tsW (by decide) (by decide) (by decide)

/-- C6: for every well-formed grid on which `as_time_series` succeeds,
the sum of the time-series values equals the sum of all present
(non-missing) cells of the grid. -/
theorem as_time_series_sum_eq (df : DataFrame) (ts : List (Nat × Int))
    (hw : df.wellFormed) (h : as_time_series df = .ok ts) :
    (ts.map Prod.snd).sum = df.presentCells.sum :=
  (as_time_series_values_perm hw h).sum_eq

/-- Witness for C6 at the concrete frame `dfW`. -/
theorem as_time_series_sum_eq_witness :
    (tsW.map Prod.snd).sum = dfW.presentCells.sum :=
  as_time_series_sum_eq dfW tsW (by decide) (by decide)

/-- C10: the time series never carries a missing value: its multiset of
values is exactly the multiset of present grid cells (missing cells are
dropped by `stack` and produce no entry), so every entry's value is the
value of some present cell. -/
theorem as_time_series_values_present (df : DataFrame) (ts : List (Nat × Int))
    (hw : df.wellFormed) (h : as_time_series df = .ok ts) :
    (ts.map Prod.snd).Perm df.presentCells ∧
      ∀ p ∈ ts, p.2 ∈ df.presentCells := by
  have hp := as_time_series_values_perm hw h
  exact ⟨hp, fun p hpmem => hp.subset (List.mem_map_of_mem Prod.snd hpmem)⟩

/-- Witness for C10 at the concrete frame `dfW`. -/
theorem as_time_series_values_present_witness :
    (tsW.map Prod.snd).Perm dfW.presentCells ∧
      ∀ p ∈ tsW, p.2 ∈ dfW.presentCells :=
  as_time_series_values_present dfW tsW (by decide) (by decide)

/-- C1 (counterexample): on the 12-month grid holding the present value
5 at (day 29, February), `as_time_series` raises a date-parsing error
(Feb 29, 2021 is invalid) instead of silently discarding the cell. -/
theorem as_time_series_feb29_raises :
    as_time_series gFeb29 = .error "ValueError: day is out of range for month" := by
  decide

/-- C1 (amended): a cell at an invalid (day, month) combination is
silently dropped only when its value is missing (removed by `stack`
before date construction); whenever a present value survives stacking
at a combination `to_datetime` rejects, `as_time_series` raises instead
of filtering the cell. -/
theorem as_time_series_error_on_invalid_present (df : DataFrame)
    (d : Nat) (m : String) (v : Int) (e : String)
    (hmem : (d, m, v) ∈ df.stack) (he : to_datetime d m = .error e) :
    ∃ e', as_time_series df = .error e' := by
  obtain ⟨e', he'⟩ := dateStack_error_of_mem hmem he
  refine ⟨e', ?_⟩
  unfold as_time_series
  rw [he']
  rfl

/-- Witness for the amended C1 at the concrete grid `gFeb29`. -/
theorem as_time_series_error_on_invalid_present_witness :
    ∃ e', as_time_series gFeb29 = .error e' :=
  as_time_series_error_on_invalid_present gFeb29 29 "February" 5
    "ValueError: day is out of range for month" (by decide) (by decide)

/-- C9: `as_time_series` is a pure function of its grid argument:
applying it to grids with identical labels and cells (in particular,
applying it twice to the same grid) yields identical results. -/
theorem as_time_series_deterministic (df₁ df₂ : DataFrame)
    (hi : df₁.index = df₂.index) (hc : df₁.cols = df₂.cols)
    (hd : df₁.data = df₂.data) :
    as_time_series df₁ = as_time_series df₂ := by
  cases df₁
  cases df₂
  cases hi
  cases hc
  cases hd
  rfl

/-- Witness for C9: two runs on the frame `dfW` agree. -/
theorem as_time_series_deterministic_witness :
    as_time_series dfW = as_time_series dfW :=
  as_time_series_deterministic dfW dfW rfl rfl rfl

/-- C3 (code behaviour at the failing input): when the cumulative sum
never strictly exceeds 10000, `csum[csum > 10000]` is empty and
`idxmin` raises `ValueError` — `main` crashes instead of reporting
"not reached". -/
theorem goalCrossing_crash_when_not_exceeded :
    goalCrossing [(dateCode 2021 1 1, 5)] =
      .error "ValueError: attempt to get argmin of an empty sequence" := by
  decide

/-! ### Facts about `load_data` -/

/-- C7 (amended): `load_data` keeps the first 31 rows and relabels them
`1..31` when the source has at least 31 rows; with fewer than 31 rows
the index assignment `df.index = range(1, 32)` raises a length-mismatch
`ValueError` instead of returning a shorter frame. -/
theorem load_data_rows (t : Table) :
    (31 ≤ t.data.length →
      ∃ df, load_data t = .ok df ∧ df.index = List.range' 1 31 ∧
        df.data = (t.data.map (dropUnnamedRow t.cols)).take 31 ∧
        df.data.length = 31) ∧
    (t.data.length < 31 →
      load_data t =
        .error "ValueError: Length mismatch: Expected axis has 31 elements") := by
  constructor
  · intro h
    unfold load_data
    have hlen : ((t.data.map (dropUnnamedRow t.cols)).take 31).length = 31 := by
      rw [List.length_take, List.length_map]
      omega
    rw [if_pos hlen]
    exact ⟨_, rfl, rfl, rfl, hlen⟩
  · intro h
    unfold load_data
    have hlen : ((t.data.map (dropUnnamedRow t.cols)).take 31).length ≠ 31 := by
      rw [List.length_take, List.length_map]
      omega
    rw [if_neg hlen]

/-- C7 (counterexample): a 30-row source makes `load_data` raise the
pandas length-mismatch error rather than return a 30-row grid. -/
theorem load_data_30_rows_errors :
    load_data tbl30 =
      .error "ValueError: Length mismatch: Expected axis has 31 elements" := by
  decide

/-- Witness for the amended C7: a 31-row table loads with index `1..31`;
a 30-row table errors. -/
theorem load_data_rows_witness :
    (∃ df, load_data tbl31 = .ok df ∧ df.index = List.range' 1 31 ∧
      df.data = (tbl31.data.map (dropUnnamedRow tbl31.cols)).take 31 ∧
      df.data.length = 31) ∧
    load_data tbl30 =
      .error "ValueError: Length mismatch: Expected axis has 31 elements" :=
  ⟨(load_data_rows tbl31).1 (by decide), (load_data_rows tbl30).2 (by decide)⟩

lemma map_renameWith_zip :
    ∀ (l r : List String), l.Nodup → l.length ≤ r.length →
      l.map (renameWith (l.zip r)) = r.take l.length := by
  intro l
  induction l with
  | nil => intro r _ _; simp
  | cons a l ih =>
    intro r hn hlen
    cases r with
    | nil => simp at hlen
    | cons b r =>
      simp only [List.length_cons] at hlen
      simp only [List.nodup_cons] at hn
      simp only [List.zip_cons_cons, List.map_cons, List.length_cons,
        List.take_succ_cons]
      rw [List.cons_eq_cons]
      constructor
      · unfold renameWith
        have hfilter : ((l.zip r).filter fun q => q.1 = a) = [] := by
          rw [List.filter_eq_nil_iff]
          intro q hq
          have hql : q.1 ∈ l := (List.of_mem_zip hq).1
          simp only [decide_eq_true_eq]
          exact fun hqa => hn.1 (hqa ▸ hql)
        rw [List.filter_cons]
        simp only [decide_True, if_true, hfilter]
        rfl
      · have hmap : l.map (renameWith ((a, b) :: l.zip r)) =
            l.map (renameWith (l.zip r)) := by
          apply List.map_congr_left
          intro c hc
          unfold renameWith
          rw [List.filter_cons]
          have hac : ¬(a = c) := fun h => hn.1 (h ▸ hc)
          simp only [hac, decide_False, Bool.false_eq_true, if_false]
        rw [hmap, ih r hn.2 (by omega)]

/-- C8: `load_data` drops every `Unnamed:` column, then renames the
surviving columns positionally to the month names; when fewer than 12
meaningful columns remain, `zip` truncates the month list silently and
the load still succeeds (given at least 31 rows). -/
theorem load_data_rename (t : Table)
    (hn : (t.cols.filter keepCol).Nodup)
    (h12 : (t.cols.filter keepCol).length ≤ 12)
    (hlen : 31 ≤ t.data.length) :
    ∃ df, load_data t = .ok df ∧
      df.cols = MONTHS.take (t.cols.filter keepCol).length ∧
      df.data = (t.data.map (dropUnnamedRow t.cols)).take 31 := by
  unfold load_data
  have hl : ((t.data.map (dropUnnamedRow t.cols)).take 31).length = 31 := by
    rw [List.length_take, List.length_map]
    omega
  rw [if_pos hl]
  refine ⟨_, rfl, ?_, rfl⟩
  have h12' : (t.cols.filter keepCol).length ≤ MONTHS.length := by
    have hM : MONTHS.length = 12 := by decide
    omega
  exact map_renameWith_zip _ MONTHS hn h12'

/-- Witness for C8 at the concrete table `tblU`: the `Unnamed:` column
disappears and the two meaningful columns become January and February. -/
theorem load_data_rename_witness :
    ∃ df, load_data tblU = .ok df ∧
      df.cols = MONTHS.take (tblU.cols.filter keepCol).length ∧
      df.data = (tblU.data.map (dropUnnamedRow tblU.cols)).take 31 :=
  load_data_rename tblU (by decide) (by decide) (by decide)

/-! ### Facts about `cumsum`, `idxmin` and the goal-crossing date -/

lemma cumsumFrom_map_fst (acc : Int) (l : List (Nat × Int)) :
    (cumsumFrom acc l).map Prod.fst = l.map Prod.fst := by
  induction l generalizing acc with
  | nil => rfl
  | cons p rest ih =>
    obtain ⟨d, v⟩ := p
    simp only [cumsumFrom, List.map_cons, ih]

lemma cumsumFrom_length (acc : Int) (l : List (Nat × Int)) :
    (cumsumFrom acc l).length = l.length := by
  induction l generalizing acc with
  | nil => rfl
  | cons p rest ih =>
    obtain ⟨d, v⟩ := p
    simp only [cumsumFrom, List.length_cons, ih]

lemma cumsumFrom_ge (acc : Int) (l : List (Nat × Int))
    (h : ∀ p ∈ l, 0 ≤ p.2) : ∀ q ∈ cumsumFrom acc l, acc ≤ q.2 := by
  induction l generalizing acc with
  | nil => intro q hq; cases hq
  | cons p rest ih =>
    obtain ⟨d, v⟩ := p
    intro q hq
    have hv : (0 : Int) ≤ v := h (d, v) (List.mem_cons_self _ _)
    cases hq with
    | head => omega
    | tail _ hq =>
      have := ih (acc + v) (fun p hp => h p (List.mem_cons_of_mem _ hp)) q hq
      omega

lemma cumsumFrom_pairwise (acc : Int) (l : List (Nat × Int))
    (h : ∀ p ∈ l, 0 ≤ p.2) :
    (cumsumFrom acc l).Pairwise fun a b => a.2 ≤ b.2 := by
  induction l generalizing acc with
  | nil => exact List.Pairwise.nil
  | cons p rest ih =>
    obtain ⟨d, v⟩ := p
    refine List.Pairwise.cons ?_ (ih (acc + v) fun p hp => h p (List.mem_cons_of_mem _ hp))
    intro q hq
    exact cumsumFrom_ge (acc + v) rest (fun p hp => h p (List.mem_cons_of_mem _ hp)) q hq

lemma getLast?_cons_of_ne_nil {α : Type} {a : α} {l : List α} (h : l ≠ []) :
    (a :: l).getLast? = l.getLast? := by
  cases l with
  | nil => cases h rfl
  | cons b t => exact List.getLast?_cons_cons

lemma cumsumFrom_last (acc : Int) (l : List (Nat × Int)) :
    ((cumsumFrom acc l).map Prod.snd).getLast? =
      if l.isEmpty then none else some (acc + (l.map Prod.snd).sum) := by
  induction l generalizing acc with
  | nil => rfl
  | cons p rest ih =>
    obtain ⟨d, v⟩ := p
    cases rest with
    | nil => simp [cumsumFrom]
    | cons p' rest' =>
      have hne : (cumsumFrom (acc + v) (p' :: rest')).map Prod.snd ≠ [] := by
        intro hnil
        have hl := congrArg List.length hnil
        rw [List.length_map, cumsumFrom_length] at hl
        simp at hl
      rw [show cumsumFrom acc ((d, v) :: p' :: rest') =
          (d, acc + v) :: cumsumFrom (acc + v) (p' :: rest') from rfl,
        List.map_cons, getLast?_cons_of_ne_nil hne, ih (acc + v)]
      simp [add_assoc]

/-- C5: over non-negative values, the cumulative sum is monotonically
non-decreasing in date order and its final value is the grand total of
the series. -/
theorem cumsum_monotone_total (ts : List (Nat × Int))
    (h : ∀ p ∈ ts, 0 ≤ p.2) :
    ((cumsum ts).map Prod.snd).Pairwise (· ≤ ·) ∧
      ((cumsum ts).map Prod.snd).getLast? =
        if ts.isEmpty then none else some ((ts.map Prod.snd).sum) := by
  constructor
  · rw [List.pairwise_map]
    exact cumsumFrom_pairwise 0 ts h
  · rw [cumsum, cumsumFrom_last]
    cases ts <;> simp

/-- Witness for C5 at a concrete three-entry series. -/
theorem cumsum_monotone_total_witness :
    ((cumsum [(1, 3), (2, 0), (3, 4)]).map Prod.snd).Pairwise (· ≤ ·) ∧
      ((cumsum [(1, 3), (2, 0), (3, 4)]).map Prod.snd).getLast? =
        if ([(1, 3), (2, 0), (3, 4)] : List (Nat × Int)).isEmpty then none
        else some (([(1, 3), (2, 0), (3, 4)] : List (Nat × Int)).map Prod.snd).sum :=
  cumsum_monotone_total [(1, 3), (2, 0), (3, 4)] (by decide)

lemma idxminFrom_of_min :
    ∀ (l : List (Nat × Int)) (b : Nat × Int),
      (∀ p ∈ l, b.2 ≤ p.2) → idxminFrom b l = b.1 := by
  intro l
  induction l with
  | nil => intro b _; rfl
  | cons p rest ih =>
    intro b h
    unfold idxminFrom
    rw [if_neg (not_lt.mpr (h p (List.mem_cons_self _ _)))]
    exact ih b fun q hq => h q (List.mem_cons_of_mem _ hq)

lemma filter_gt_eq_dropWhile (cs : List (Nat × Int))
    (hmono : cs.Pairwise fun a b => a.2 ≤ b.2) :
    (cs.filter fun p => 10000 < p.2) = cs.dropWhile fun p => p.2 ≤ 10000 := by
  induction cs with
  | nil => rfl
  | cons a t ih =>
    rw [List.pairwise_cons] at hmono
    rw [List.filter_cons, List.dropWhile_cons]
    by_cases ha : 10000 < a.2
    · have h1 : decide (10000 < a.2) = true := decide_eq_true ha
      have h2 : decide (a.2 ≤ 10000) = false := by
        simp only [decide_eq_false_iff_not]
        omega
      rw [h1, h2]
      simp only [if_true, Bool.false_eq_true, if_false]
      have hta : t.filter (fun p => decide (10000 < p.2)) = t := by
        rw [List.filter_eq_self]
        intro q hq
        have := hmono.1 q hq
        simp only [decide_eq_true_eq]
        omega
      rw [hta]
    · have h1 : decide (10000 < a.2) = false := by
        simp only [decide_eq_false_iff_not]
        omega
      have h2 : decide (a.2 ≤ 10000) = true := by
        simp only [decide_eq_true_eq]
        omega
      rw [h1, h2]
      simp only [if_true, Bool.false_eq_true, if_false]
      exact ih hmono.2

/-- C4: over non-negative values with strictly increasing dates, when
some cumulative sum strictly exceeds 10000, the computed goal-crossing
date is the date of the first entry whose cumulative sum is strictly
greater than 10000: every earlier entry stays at most 10000 (a running
total of exactly 10000 is not a crossing), and every crossing entry
other than that first one lies strictly later in time. -/
theorem goalCrossing_first (ts : List (Nat × Int))
    (hnn : ∀ p ∈ ts, 0 ≤ p.2)
    (hsd : (ts.map Prod.fst).Pairwise (· < ·))
    (hex : ∃ q ∈ cumsum ts, 10000 < q.2) :
    ∃ P b F, cumsum ts = P ++ b :: F ∧
      goalCrossing ts = .ok b.1 ∧ 10000 < b.2 ∧
      (∀ q ∈ P, q.2 ≤ 10000) ∧
      (∀ q ∈ cumsum ts, 10000 < q.2 → q = b ∨ b.1 < q.1) := by
  have hmono : (cumsum ts).Pairwise fun a b => a.2 ≤ b.2 :=
    cumsumFrom_pairwise 0 ts hnn
  have hdates : (cumsum ts).Pairwise fun a b => a.1 < b.1 := by
    have h := hsd
    rw [← cumsumFrom_map_fst 0 ts, List.pairwise_map] at h
    exact h
  have hfil : ((cumsum ts).filter fun p => 10000 < p.2) =
      (cumsum ts).dropWhile fun p => p.2 ≤ 10000 :=
    filter_gt_eq_dropWhile (cumsum ts) hmono
  obtain ⟨q0, hq0, hq0v⟩ := hex
  have hq0f : q0 ∈ (cumsum ts).filter fun p => 10000 < p.2 :=
    List.mem_filter.mpr ⟨hq0, by simpa using hq0v⟩
  cases hF : (cumsum ts).dropWhile fun p => p.2 ≤ 10000 with
  | nil =>
    rw [hfil, hF] at hq0f
    cases hq0f
  | cons b F =>
    have hsplit : cumsum ts =
        ((cumsum ts).takeWhile fun p => p.2 ≤ 10000) ++ b :: F := by
      rw [← hF, List.takeWhile_append_dropWhile]
    have hbF : (b :: F).Pairwise fun a b => a.2 ≤ b.2 :=
      List.Pairwise.sublist (hF ▸ List.dropWhile_sublist _) hmono
    refine ⟨(cumsum ts).takeWhile fun p => p.2 ≤ 10000, b, F, hsplit,
      ?_, ?_, ?_, ?_⟩
    · unfold goalCrossing
      rw [hfil, hF]
      show Except.ok (idxminFrom b F) = Except.ok b.1
      rw [idxminFrom_of_min F b fun p hp => (List.pairwise_cons.mp hbF).1 p hp]
    · have hbmem : b ∈ (cumsum ts).filter fun p => 10000 < p.2 := by
        rw [hfil, hF]
        exact List.mem_cons_self _ _
      simpa using (List.mem_filter.mp hbmem).2
    · intro q hq
      have := List.mem_takeWhile_imp hq
      simpa using this
    · intro q hq hqv
      rcases List.mem_append.mp (hsplit ▸ hq) with hqP | hqbf
      · exfalso
        have := List.mem_takeWhile_imp hqP
        simp only [decide_eq_true_eq] at this
        omega
      · rcases List.mem_cons.mp hqbf with hqb | hqF
        · exact Or.inl hqb
        · right
          have hpair : (b :: F).Pairwise fun a b => a.1 < b.1 :=
            (List.pairwise_append.mp (hsplit ▸ hdates)).2.1
          exact (List.pairwise_cons.mp hpair).1 q hqF

/-- Witness for C4: a series whose running total reaches exactly 10000
and then crosses at the next positive entry (date 4). -/
theorem goalCrossing_first_witness :
    ∃ P b F, cumsum [(1, 6000), (2, 4000), (3, 0), (4, 30)] = P ++ b :: F ∧
      goalCrossing [(1, 6000), (2, 4000), (3, 0), (4, 30)] = .ok b.1 ∧
      10000 < b.2 ∧
      (∀ q ∈ P, q.2 ≤ 10000) ∧
      (∀ q ∈ cumsum [(1, 6000), (2, 4000), (3, 0), (4, 30)],
        10000 < q.2 → q = b ∨ b.1 < q.1) :=
  goalCrossing_first [(1, 6000), (2, 4000), (3, 0), (4, 30)]
    (by decide) (by decide) (by decide)
